import Mathlib

/-!
Shallow embedding of the LambdUpdate event-to-action pipeline (src/lib.rs).

Strings are modelled as `List Char` (`Str`); Rust `Option`/`Result` become
`Option`/`Except`.  The effectful collaborators (S3 `head_object`, Lambda
`update_function_code`) are modelled as functions supplied in an `Env`
record; `update` returns, besides its `Result`, the list of dispatched
update calls together with each call's outcome, so that claims about which
downstream calls are issued can be stated.
-/

deriving instance DecidableEq for Except

namespace LambdUpdate

/-- Strings, modelled as lists of characters. -/
abbrev Str := List Char

/-- Convert a Lean string literal to the `Str` model. -/
def str (s : String) : Str := s.data

/-- Rust `char::is_whitespace`, restricted to the ASCII whitespace characters
(the only ones the pipeline's inputs contain). -/
def isWs (c : Char) : Bool := c.isWhitespace

/-- Rust `str::trim`: remove leading and trailing whitespace. -/
def trim (s : Str) : Str :=
  ((s.dropWhile isWs).reverse.dropWhile isWs).reverse

/-- Rust `str::split(',')`: split on commas, keeping empty pieces.
`splitOnComma [] = [[]]`, matching `"".split(',')` yielding one empty piece. -/
def splitOnComma : Str → List Str
  | [] => [[]]
  | c :: rest =>
    let r := splitOnComma rest
    if c = ',' then [] :: r
    else
      match r with
      | [] => [[c]]
      | h :: t => (c :: h) :: t

/-- Rust `str::strip_suffix`: `some` of the string with the suffix removed
when the suffix is present, `none` otherwise. -/
def strip_suffix (s suffix : Str) : Option Str :=
  if suffix <:+ s then some (s.take (s.length - suffix.length)) else none

/-- The reserved metadata field name `function.names` (src/lib.rs line 18). -/
def FUNCTION_NAME_MD_KEY : Str := str "function.names"

/-- The `.zip` suffix required for key-based fallback name derivation. -/
def zipSuffix : Str := str ".zip"

/-- `aws_lambda_events::s3::S3Bucket`, reduced to the field the pipeline reads. -/
structure S3Bucket where
  name : Option Str
deriving DecidableEq

/-- `aws_lambda_events::s3::S3Object`, reduced to the field the pipeline reads. -/
structure S3Object where
  key : Option Str
deriving DecidableEq

/-- `aws_lambda_events::s3::S3Entity`, reduced to the fields the pipeline reads. -/
structure S3Entity where
  bucket : S3Bucket
  object : S3Object
deriving DecidableEq

/-- `aws_lambda_events::s3::S3EventRecord`, reduced to the fields the pipeline reads. -/
structure S3EventRecord where
  aws_region : Option Str
  s3 : S3Entity
deriving DecidableEq

/-- `aws_lambda_events::s3::S3Event`. -/
structure S3Event where
  records : List S3EventRecord
deriving DecidableEq

/-- `aws_sdk_s3::operation::head_object::HeadObjectOutput`, reduced to its
`metadata` field; the `HashMap<String, String>` is modelled as an association
list (lookup of a single key is all the code does with it). -/
structure HeadObjectOutput where
  metadata : Option (List (Str × Str))
deriving DecidableEq

/-- The errors `update` and its helpers can produce (`anyhow!` sites in
src/lib.rs), as a datatype carrying the data interpolated into each message. -/
inductive UpdateError where
  /-- "Invalid region count: \x7bregions:?\x7d" — carries the offending set of
  regions (as a duplicate-free list; the Rust `HashSet` iteration order is
  unspecified, the model uses first-occurrence order). -/
  | invalidRegionCount (regions : List Str)
  /-- "Bucket not found in \x7brecord:?\x7d" -/
  | bucketNotFound (record : S3EventRecord)
  /-- "Key not found in \x7brecord:?\x7d" -/
  | keyNotFound (record : S3EventRecord)
  /-- "'.zip' not found in object key: \x7bkey\x7d" -/
  | zipNotFound (key : Str)
  /-- "No valid function names found in: '\x7bnames\x7d' - ..." -/
  | noValidFunctionNames (names : Str)
deriving DecidableEq

/-- `get_region` (src/lib.rs lines 33-48): collect the regions present on the
records into a set; exactly one element means that element is the region,
anything else is an invalid region count. -/
def get_region (records : List S3EventRecord) : Except UpdateError Str :=
  let regions := (records.filterMap S3EventRecord.aws_region).dedup
  match regions with
  | [r] => Except.ok r
  | _ => Except.error (UpdateError.invalidRegionCount regions)

/-- `get_function_names_from_head_object_output` (src/lib.rs lines 60-76):
on a successful head-object fetch, look up `function.names` in the metadata
(if any); on a failed fetch, `none`.  The Rust `bucket`/`key` parameters feed
only log output and are omitted. -/
def get_function_names_from_head_object_output {E : Type}
    (head_object_output : Except E HeadObjectOutput) : Option Str :=
  match head_object_output with
  | Except.ok out => out.metadata.bind fun m => m.lookup FUNCTION_NAME_MD_KEY
  | Except.error _ => none

/-- `get_function_names` (src/lib.rs lines 92-112): metadata names win when
present; otherwise the key must end in `.zip` and the name is the key with
that suffix stripped. -/
def get_function_names (function_names_from_md : Option Str) (key : Str) :
    Except UpdateError Str :=
  match function_names_from_md with
  | some function_names => Except.ok function_names
  | none =>
    match strip_suffix key zipSuffix with
    | some function_name => Except.ok function_name
    | none => Except.error (UpdateError.zipNotFound key)

/-- `process_function_names` (src/lib.rs lines 124-144): split on commas,
trim each piece, drop empty pieces; error when nothing remains. -/
def process_function_names (function_names : Str) :
    Except UpdateError (List Str) :=
  let processed_names := ((splitOnComma function_names).map trim).filter
    fun name => name ≠ []
  if processed_names = [] then
    Except.error (UpdateError.noValidFunctionNames function_names)
  else
    Except.ok processed_names

/-- One (function name, bucket, key) unit of dispatched work
(an element of `update_tasks` in src/lib.rs lines 216-218). -/
structure UpdateTask where
  functionName : Str
  bucket : Str
  key : Str
deriving DecidableEq

/-- The effectful collaborators of `update`, as pure functions: the S3
head-object call (its error content is irrelevant to the code, so `Unit`)
and the Lambda update-function-code call (errors carry a cause string). -/
structure Env where
  headObject : Str → Str → Except Unit HeadObjectOutput
  updateFunctionCode : Str → Str → Str → Except Str Unit

/-- `get_function_names_from_md` (src/lib.rs lines 50-58): perform the
head-object call and extract the metadata names from its output. -/
def get_function_names_from_md (env : Env) (bucket key : Str) : Option Str :=
  get_function_names_from_head_object_output (env.headObject bucket key)

/-- The body of the per-record loop of `update` (src/lib.rs lines 195-218):
require bucket and key, resolve the names string, normalize it, and expand
into one `UpdateTask` per name. -/
def resolve_record (env : Env) (record : S3EventRecord) :
    Except UpdateError (List UpdateTask) := do
  let bucket ← match record.s3.bucket.name with
    | some b => Except.ok b
    | none => Except.error (UpdateError.bucketNotFound record)
  let key ← match record.s3.object.key with
    | some k => Except.ok k
    | none => Except.error (UpdateError.keyNotFound record)
  let function_names_from_md := get_function_names_from_md env bucket key
  let function_names ← get_function_names function_names_from_md key
  let processed_names ← process_function_names function_names
  Except.ok (processed_names.map fun n =>
    { functionName := n, bucket := bucket, key := key })

/-- The whole record loop of `update`: accumulate every record's tasks in
order, stopping at the first record that fails to resolve. -/
def resolve_update_tasks (env : Env) :
    List S3EventRecord → Except UpdateError (List UpdateTask)
  | [] => Except.ok []
  | r :: rs => do
    let ts ← resolve_record env r
    let rest ← resolve_update_tasks env rs
    Except.ok (ts ++ rest)

/-- The fan-out of `update` (src/lib.rs lines 221-229): spawn one
update-function-code call per task; every call is issued, and each call's
outcome is captured.  Returned as the list of (task, outcome) pairs. -/
def dispatch (env : Env) (tasks : List UpdateTask) :
    List (UpdateTask × Except Str Unit) :=
  tasks.map fun t =>
    (t, env.updateFunctionCode t.functionName t.bucket t.key)

/-- `update` (src/lib.rs lines 182-235).  Returns the list of dispatched
calls with their outcomes, paired with the overall `Result`.

Line 232 reads `try_join_all(update_code_futures).await?;` where the futures
are `tokio::spawn` join handles: `try_join_all` produces
`Result<Vec<Result<(), Error>>, JoinError>`, the `?` propagates only a
`JoinError` (task panic — not modelled), and the `Ok` vector of per-task
outcomes is discarded.  The model mirrors this: the dispatched outcomes do
not influence the overall result. -/
def update (env : Env) (event : S3Event) :
    List (UpdateTask × Except Str Unit) × Except UpdateError Unit :=
  match get_region event.records with
  | Except.error e => ([], Except.error e)
  | Except.ok _ =>
    match resolve_update_tasks env event.records with
    | Except.error e => ([], Except.error e)
    | Except.ok tasks => (dispatch env tasks, Except.ok ())

/-! ## Concrete environments and events used in witnesses and examples -/

/-- An environment whose head-object call always fails (no metadata reachable)
and whose update calls always succeed. -/
def env0 : Env where
  headObject := fun _ _ => Except.error ()
  updateFunctionCode := fun _ _ _ => Except.ok ()

/-- An environment whose head-object call always fails and whose
update-function-code call always fails with cause "boom". -/
def envBoom : Env where
  headObject := fun _ _ => Except.error ()
  updateFunctionCode := fun _ _ _ => Except.error (str "boom")

/-- A well-formed record: region `us-west-2`, bucket `b`, key `f.zip`. -/
def recordZip : S3EventRecord where
  aws_region := some (str "us-west-2")
  s3 := { bucket := { name := some (str "b") },
          object := { key := some (str "f.zip") } }

/-- A single-record event around `recordZip`. -/
def eventZip : S3Event := { records := [recordZip] }

/-! ## Small general lemmas about the embedded operations -/

theorem ok_bind {ε α β : Type} (a : α) (f : α → Except ε β) :
    (Except.ok a >>= f : Except ε β) = f a := rfl

theorem error_bind {ε α β : Type} (e : ε) (f : α → Except ε β) :
    (Except.error e >>= f : Except ε β) = Except.error e := rfl

theorem strip_suffix_append (name suffix : Str) :
    strip_suffix (name ++ suffix) suffix = some name := by
  unfold strip_suffix
  rw [if_pos (List.suffix_append name suffix)]
  simp [List.length_append]

theorem strip_suffix_eq_none (s suffix : Str)
    (h : ¬ ∃ t, s = t ++ suffix) : strip_suffix s suffix = none := by
  have hns : ¬ suffix <:+ s := by
    intro hsuf
    obtain ⟨t, ht⟩ := hsuf
    exact h ⟨t, ht.symm⟩
  unfold strip_suffix
  rw [if_neg hns]

theorem dispatch_fst (env : Env) (tasks : List UpdateTask) :
    (dispatch env tasks).map Prod.fst = tasks := by
  unfold dispatch
  rw [List.map_map]
  exact List.map_id tasks

-- Sanity examples mirroring the repository's unit tests.

example : process_function_names (str "func1,func2,func3") =
    Except.ok [str "func1", str "func2", str "func3"] := by decide

example : process_function_names (str " func1 , func2 , func3 ") =
    Except.ok [str "func1", str "func2", str "func3"] := by decide

example : process_function_names (str ",, ,") =
    Except.error (UpdateError.noValidFunctionNames (str ",, ,")) := by decide

example : process_function_names (str "func1,,func2, ,func3") =
    Except.ok [str "func1", str "func2", str "func3"] := by decide

example : get_function_names (some (str "foo,bar")) (str "bar") =
    Except.ok (str "foo,bar") := by decide

example : get_function_names none (str "bar.zip") = Except.ok (str "bar") := by
  decide

example : get_function_names none (str "bar") =
    Except.error (UpdateError.zipNotFound (str "bar")) := by decide

example :
    get_region [{ aws_region := some (str "us-east-1"),
                  s3 := { bucket := { name := some (str "foo") },
                          object := { key := some (str "bar") } } }] =
      Except.ok (str "us-east-1") := by decide

example : get_region [] =
    Except.error (UpdateError.invalidRegionCount []) := by decide

/-! ## Claims -/

/-- C1: the claim says a failed update-function-code task makes `update`
return a failure, and `update` succeeds only when all updates succeeded.
The code contradicts this (and its own doc comment "Returns error if ...
AWS operations fail"): line 232 discards the `Ok` vector of per-task
results of `try_join_all` over the spawned join handles, so a failing task
leaves the overall result `Ok(())`.  This theorem evaluates the model at a
failing input: the single resolved task's update call fails with cause
"boom", the failure appears in the dispatched outcomes, and yet `update`
returns success. -/
theorem c1_task_failure_not_propagated :
    update envBoom eventZip =
      ([({ functionName := str "f", bucket := str "b", key := str "f.zip" },
          Except.error (str "boom"))],
        Except.ok ()) := by decide

/-- A record carrying an empty-string region (and nothing else). -/
def recordEmptyRegion : S3EventRecord where
  aws_region := some []
  s3 := { bucket := { name := none }, object := { key := none } }

/-- C2 counterexample: for the single record whose region is present but is
the empty string, the set of distinct non-empty region values is empty, so
the claim requires an "invalid region count" failure; the code instead
returns that empty string as the region (its `filter_map` keeps every
present region value, empty or not). -/
theorem c2_counterexample :
    ((([recordEmptyRegion].filterMap S3EventRecord.aws_region).filter
        (fun r => r ≠ [])).dedup = ([] : List Str)) ∧
    get_region [recordEmptyRegion] = Except.ok [] := by decide

/-- C2 (amended): the region validator collects the set of distinct region
values *present* on the records (including empty strings); exactly one
distinct value means that value is returned, and zero or more than one
distinct values mean an "invalid region count" failure carrying the
offending set. -/
theorem c2_region_validator (records : List S3EventRecord) :
    (∃ r, (records.filterMap S3EventRecord.aws_region).dedup = [r] ∧
        get_region records = Except.ok r) ∨
    ((records.filterMap S3EventRecord.aws_region).dedup.length ≠ 1 ∧
        get_region records = Except.error (UpdateError.invalidRegionCount
          ((records.filterMap S3EventRecord.aws_region).dedup))) := by
  rcases h : (records.filterMap S3EventRecord.aws_region).dedup with _ | ⟨r, rest⟩
  · right
    exact ⟨by simp [h], by simp [get_region, h]⟩
  · cases rest with
    | nil => exact Or.inl ⟨r, rfl, by simp [get_region, h]⟩
    | cons r2 rest2 =>
      right
      exact ⟨by simp [h], by simp [get_region, h]⟩

/-- C3: `process_function_names` splits on commas, trims surrounding
whitespace from each piece, discards empty pieces, preserves the relative
order of the remaining pieces (they form a sublist of the trimmed pieces),
and fails with a "no valid function names" error echoing the original input
exactly when nothing remains; the spec's three concrete cases hold. -/
theorem c3_process_function_names :
    (∀ (s : Str) (names : List Str),
      process_function_names s = Except.ok names →
        names = ((splitOnComma s).map trim).filter (fun n => n ≠ []) ∧
        names ≠ [] ∧
        names.Sublist ((splitOnComma s).map trim) ∧
        ∀ n ∈ names, n ≠ [] ∧ ∃ piece ∈ splitOnComma s, n = trim piece) ∧
    (∀ s : Str,
      process_function_names s =
          Except.error (UpdateError.noValidFunctionNames s) ↔
        ((splitOnComma s).map trim).filter (fun n => n ≠ []) = []) ∧
    process_function_names (str ",, ,") =
      Except.error (UpdateError.noValidFunctionNames (str ",, ,")) ∧
    process_function_names (str " a , b ") = Except.ok [str "a", str "b"] ∧
    process_function_names (str "a,,b") = Except.ok [str "a", str "b"] := by
  refine ⟨?_, ?_, by decide, by decide, by decide⟩
  · intro s names h
    simp only [process_function_names] at h
    by_cases hc : ((splitOnComma s).map trim).filter (fun n => n ≠ []) = []
    · rw [if_pos hc] at h
      exact absurd h (by simp)
    · rw [if_neg hc] at h
      have hEq := Except.ok.inj h
      subst hEq
      refine ⟨rfl, hc, List.filter_sublist _, ?_⟩
      intro n hn
      have hmem := List.mem_filter.mp hn
      refine ⟨by simpa using hmem.2, ?_⟩
      obtain ⟨piece, hpiece, hp⟩ := List.mem_map.mp hmem.1
      exact ⟨piece, hpiece, hp.symm⟩
  · intro s
    constructor
    · intro h
      by_contra hc
      simp only [process_function_names] at h
      rw [if_neg hc] at h
      exact absurd h (by simp)
    · intro hc
      simp only [process_function_names]
      rw [if_pos hc]

/-- C3 witness: applying the theorem at `" a , b "` with the concrete output
`["a", "b"]`. -/
theorem c3_witness :
    ([str "a", str "b"] : List Str) =
      ((splitOnComma (str " a , b ")).map trim).filter (fun n => n ≠ []) :=
  (c3_process_function_names.1 (str " a , b ") [str "a", str "b"]
    (by decide)).1

/-- C4: `get_function_names` returns the raw metadata value unchanged
whenever metadata is present, regardless of the key; with no metadata it
returns the key with the `.zip` suffix stripped when the key ends in
`.zip`, and otherwise fails with an error naming the offending key. -/
theorem c4_get_function_names :
    (∀ v key : Str, get_function_names (some v) key = Except.ok v) ∧
    (∀ name key : Str, key = name ++ str ".zip" →
      get_function_names none key = Except.ok name) ∧
    (∀ key : Str, (¬ ∃ name, key = name ++ str ".zip") →
      get_function_names none key =
        Except.error (UpdateError.zipNotFound key)) := by
  refine ⟨fun v key => rfl, ?_, ?_⟩
  · intro name key hkey
    subst hkey
    simp [get_function_names, zipSuffix, strip_suffix_append]
  · intro key hkey
    have h := strip_suffix_eq_none key (str ".zip") hkey
    simp [get_function_names, zipSuffix, h]

/-- C4 witness: applying the theorem at the key `"myfunc.zip"`. -/
theorem c4_witness :
    get_function_names none (str "myfunc.zip") = Except.ok (str "myfunc") :=
  c4_get_function_names.2.1 (str "myfunc") (str "myfunc.zip") (by decide)

/-- C5: a failed head-object fetch is treated exactly like absent metadata:
`get_function_names_from_head_object_output` is `none` on any fetch error,
on absent metadata, and on metadata lacking the `function.names` field, and
on a fetch error the pipeline falls back to the key-derived name instead of
failing. -/
theorem c5_head_object_failure_collapses_to_fallback :
    (∀ (E : Type) (e : E),
      get_function_names_from_head_object_output (Except.error e) =
        (none : Option Str)) ∧
    (get_function_names_from_head_object_output
        (Except.ok { metadata := none } : Except Unit HeadObjectOutput) =
      none) ∧
    (∀ m : List (Str × Str), m.lookup FUNCTION_NAME_MD_KEY = none →
      get_function_names_from_head_object_output
        (Except.ok { metadata := some m } : Except Unit HeadObjectOutput) =
        none) ∧
    (∀ (E : Type) (e : E) (name key : Str), key = name ++ str ".zip" →
      get_function_names
        (get_function_names_from_head_object_output (Except.error e)) key =
        Except.ok name) := by
  refine ⟨fun E e => rfl, rfl, ?_, ?_⟩
  · intro m hm
    simp [get_function_names_from_head_object_output, hm]
  · intro E e name key hkey
    subst hkey
    simp [get_function_names_from_head_object_output, get_function_names,
      zipSuffix, strip_suffix_append]

/-- C5 witness: applying the theorem to metadata that lacks the
`function.names` field. -/
theorem c5_witness :
    get_function_names_from_head_object_output
      (Except.ok { metadata := some [(str "other", str "x")] } :
        Except Unit HeadObjectOutput) = none :=
  c5_head_object_failure_collapses_to_fallback.2.2.1
    [(str "other", str "x")] (by decide)

theorem resolve_record_missing (env : Env) (r : S3EventRecord)
    (h : r.s3.bucket.name = none ∨ r.s3.object.key = none) :
    ∃ e, resolve_record env r = Except.error e := by
  rcases h with h | h
  · exact ⟨UpdateError.bucketNotFound r,
      by simp [resolve_record, h, error_bind]⟩
  · cases hb : r.s3.bucket.name with
    | none => exact ⟨UpdateError.bucketNotFound r,
        by simp [resolve_record, hb, error_bind]⟩
    | some b => exact ⟨UpdateError.keyNotFound r,
        by simp [resolve_record, hb, h, ok_bind, error_bind]⟩

theorem resolve_update_tasks_error_of_mem (env : Env) :
    ∀ (records : List S3EventRecord) (r : S3EventRecord), r ∈ records →
    (∃ e, resolve_record env r = Except.error e) →
    ∃ e, resolve_update_tasks env records = Except.error e := by
  intro records
  induction records with
  | nil => intro r hr _; cases hr
  | cons a as ih =>
    intro r hr hre
    cases hra : resolve_record env a with
    | error e => exact ⟨e, by simp [resolve_update_tasks, hra, error_bind]⟩
    | ok ts =>
      rcases List.mem_cons.mp hr with h | h
      · subst h
        obtain ⟨e, he⟩ := hre
        rw [hra] at he
        simp at he
      · obtain ⟨e, he⟩ := ih r h hre
        exact ⟨e,
          by simp [resolve_update_tasks, hra, ok_bind, he, error_bind]⟩

/-- C6: a record missing its bucket name or its object key makes `update`
fail with an error — not a silent skip — and nothing is dispatched (the
list of issued update calls is empty). -/
theorem c6_missing_bucket_or_key (env : Env) (event : S3Event)
    (r : S3EventRecord) (hr : r ∈ event.records)
    (h : r.s3.bucket.name = none ∨ r.s3.object.key = none) :
    ∃ e, update env event = ([], Except.error e) := by
  cases hreg : get_region event.records with
  | error e => exact ⟨e, by simp [update, hreg]⟩
  | ok reg =>
    obtain ⟨e, he⟩ := resolve_update_tasks_error_of_mem env event.records r hr
      (resolve_record_missing env r h)
    exact ⟨e, by simp [update, hreg, he]⟩

/-- A record with a region and a key but no bucket name. -/
def recordNoBucket : S3EventRecord where
  aws_region := some (str "us-west-2")
  s3 := { bucket := { name := none }, object := { key := some (str "f.zip") } }

/-- C6 witness: applying the theorem to a single-record event whose record
has no bucket name. -/
theorem c6_witness :
    ∃ e, update env0 { records := [recordNoBucket] } =
      ([], Except.error e) :=
  c6_missing_bucket_or_key env0 { records := [recordNoBucket] }
    recordNoBucket (by decide) (Or.inl rfl)

/-- The spec's end-to-end failing record: bucket `my-s3-bucket`, key
`HappyFace.jpg` (no `.zip` suffix), region `us-west-2`. -/
def recordHappyFace : S3EventRecord where
  aws_region := some (str "us-west-2")
  s3 := { bucket := { name := some (str "my-s3-bucket") },
          object := { key := some (str "HappyFace.jpg") } }

/-- C7: a region-validation failure or a record-resolution failure makes
`update` return that failure with no update-function-code call issued, and
the spec's concrete end-to-end case — single record with bucket
`my-s3-bucket`, key `HappyFace.jpg`, region `us-west-2`, no function-name
metadata — fails with the `.zip`-not-found error and dispatches nothing. -/
theorem c7_no_dispatch_on_resolution_failure :
    (∀ (env : Env) (event : S3Event) (e : UpdateError),
      get_region event.records = Except.error e →
      update env event = ([], Except.error e)) ∧
    (∀ (env : Env) (event : S3Event) (reg : Str) (e : UpdateError),
      get_region event.records = Except.ok reg →
      resolve_update_tasks env event.records = Except.error e →
      update env event = ([], Except.error e)) ∧
    update env0 { records := [recordHappyFace] } =
      ([], Except.error (UpdateError.zipNotFound (str "HappyFace.jpg"))) := by
  refine ⟨?_, ?_, by decide⟩
  · intro env event e h
    simp [update, h]
  · intro env event reg e h1 h2
    simp [update, h1, h2]

/-- C7 witness: applying the theorem to the empty event, whose region
validation fails. -/
theorem c7_witness :
    update env0 { records := [] } =
      ([], Except.error (UpdateError.invalidRegionCount [])) :=
  c7_no_dispatch_on_resolution_failure.1 env0 { records := [] }
    (UpdateError.invalidRegionCount []) (by decide)

/-- C8: the dispatcher issues exactly one downstream update-function-code
call per task — the issued calls are exactly the task list, in order, for
every environment (in particular regardless of which calls fail) — and the
calls `update` issues on the dispatch path are exactly the resolved
tasks. -/
theorem c8_dispatcher_invokes_all_tasks :
    (∀ (env : Env) (tasks : List UpdateTask),
      (dispatch env tasks).map Prod.fst = tasks ∧
      (dispatch env tasks).length = tasks.length) ∧
    (∀ (env : Env) (event : S3Event) (reg : Str) (tasks : List UpdateTask),
      get_region event.records = Except.ok reg →
      resolve_update_tasks env event.records = Except.ok tasks →
      (update env event).fst.map Prod.fst = tasks) := by
  refine ⟨fun env tasks => ⟨dispatch_fst env tasks, by simp [dispatch]⟩, ?_⟩
  intro env event reg tasks h1 h2
  simp [update, h1, h2, dispatch_fst]

/-- C8 witness: applying the theorem to an event resolving to one task in
an environment where every update call fails — the call is still issued. -/
theorem c8_witness :
    (update envBoom eventZip).fst.map Prod.fst =
      [{ functionName := str "f", bucket := str "b", key := str "f.zip" }] :=
  c8_dispatcher_invokes_all_tasks.2 envBoom eventZip (str "us-west-2")
    [{ functionName := str "f", bucket := str "b", key := str "f.zip" }]
    (by decide) (by decide)

theorem map_ok {ε α β : Type} (f : α → β) (a : α) :
    (Except.ok a : Except ε α).map f = Except.ok (f a) := rfl

theorem map_error {ε α β : Type} (f : α → β) (e : ε) :
    (Except.error e : Except ε α).map f = Except.error e := rfl

/-- Per-record resolution: the list of task lists, one per record, that
the record loop of `update` produces before concatenating them. -/
def resolve_records_each (env : Env) :
    List S3EventRecord → Except UpdateError (List (List UpdateTask))
  | [] => Except.ok []
  | r :: rs => do
    let ts ← resolve_record env r
    let rest ← resolve_records_each env rs
    Except.ok (ts :: rest)

theorem resolve_update_tasks_eq_each (env : Env)
    (rs : List S3EventRecord) :
    resolve_update_tasks env rs =
      (resolve_records_each env rs).map List.flatten := by
  induction rs with
  | nil => rfl
  | cons r rs ih =>
    cases hr : resolve_record env r with
    | error e =>
      simp [resolve_update_tasks, resolve_records_each, hr, error_bind,
        map_error]
    | ok ts =>
      cases hm : resolve_records_each env rs with
      | error e =>
        simp [resolve_update_tasks, resolve_records_each, hr, hm, ok_bind,
          error_bind, map_error, ih]
      | ok tss =>
        simp [resolve_update_tasks, resolve_records_each, hr, hm, ok_bind,
          map_ok, ih, List.flatten_cons]

/-- C9: duplicate function names — repeated inside one record's resolved
names or across records — are not deduplicated: when the records resolve,
per record, to the task lists `tss`, the dispatched calls are their plain
concatenation, and the number of calls carrying a given function name is
the sum, over the records, of that name's occurrences. -/
theorem c9_duplicates_not_deduplicated (env : Env) (event : S3Event)
    (reg : Str) (tss : List (List UpdateTask))
    (h1 : get_region event.records = Except.ok reg)
    (h2 : resolve_records_each env event.records = Except.ok tss) :
    (update env event).fst.map Prod.fst = tss.flatten ∧
    ∀ name : Str,
      ((update env event).fst.map (fun c => c.fst.functionName)).count
          name =
        (tss.map (fun ts => (ts.map UpdateTask.functionName).count
          name)).sum := by
  have hres : resolve_update_tasks env event.records =
      Except.ok tss.flatten := by
    rw [resolve_update_tasks_eq_each, h2]
    rfl
  have hupd : update env event =
      (dispatch env tss.flatten, Except.ok ()) := by
    simp [update, h1, hres]
  have hmap : (dispatch env tss.flatten).map (fun c => c.fst.functionName) =
      tss.flatten.map UpdateTask.functionName := by
    unfold dispatch
    rw [List.map_map]
    rfl
  constructor
  · rw [hupd]
    exact dispatch_fst env tss.flatten
  · intro name
    rw [hupd]
    show ((dispatch env tss.flatten).map
        (fun c => c.fst.functionName)).count name = _
    rw [hmap, List.map_flatten, List.count_flatten, List.map_map]
    rfl

/-- An environment whose metadata lookup yields `function.names = "f,f"`
(the same name twice) and whose update calls succeed. -/
def envDupMd : Env where
  headObject := fun _ _ =>
    Except.ok { metadata := some [(FUNCTION_NAME_MD_KEY, str "f,f")] }
  updateFunctionCode := fun _ _ _ => Except.ok ()

/-- C9 witness: applying the theorem to a single record whose metadata
names `f` twice — two calls for `f` are dispatched. -/
theorem c9_witness :
    (update envDupMd eventZip).fst.map Prod.fst =
      ([[{ functionName := str "f", bucket := str "b", key := str "f.zip" },
         { functionName := str "f", bucket := str "b",
           key := str "f.zip" }]] : List (List UpdateTask)).flatten :=
  (c9_duplicates_not_deduplicated envDupMd eventZip (str "us-west-2")
    [[{ functionName := str "f", bucket := str "b", key := str "f.zip" },
      { functionName := str "f", bucket := str "b", key := str "f.zip" }]]
    (by decide) (by decide)).1

theorem resolve_record_md_no_valid_names (env : Env) (r : S3EventRecord)
    (b k v : Str) (hb : r.s3.bucket.name = some b)
    (hk : r.s3.object.key = some k)
    (hmd : get_function_names_from_md env b k = some v)
    (hf : ((splitOnComma v).map trim).filter (fun n => n ≠ []) = []) :
    resolve_record env r =
      Except.error (UpdateError.noValidFunctionNames v) := by
  have hpf : process_function_names v =
      Except.error (UpdateError.noValidFunctionNames v) := by
    simp only [process_function_names]
    rw [if_pos hf]
  simp [resolve_record, hb, hk, hmd, ok_bind, get_function_names, hpf,
    error_bind]

/-- C10: once metadata supplies `function.names`, the key-based fallback is
never consulted: a metadata value that trims away to nothing (only commas
and whitespace, or empty) makes the record's resolution — and a
single-record event's whole run, with nothing dispatched — fail with the
"no valid function names" error, whatever the key (in particular a
`.zip`-suffixed one). -/
theorem c10_metadata_empty_names_fails :
    (∀ (env : Env) (r : S3EventRecord) (b k v : Str),
      r.s3.bucket.name = some b →
      r.s3.object.key = some k →
      get_function_names_from_md env b k = some v →
      ((splitOnComma v).map trim).filter (fun n => n ≠ []) = [] →
      resolve_record env r =
        Except.error (UpdateError.noValidFunctionNames v)) ∧
    (∀ (env : Env) (r : S3EventRecord) (reg b k v : Str),
      r.aws_region = some reg →
      r.s3.bucket.name = some b →
      r.s3.object.key = some k →
      get_function_names_from_md env b k = some v →
      ((splitOnComma v).map trim).filter (fun n => n ≠ []) = [] →
      update env { records := [r] } =
        ([], Except.error (UpdateError.noValidFunctionNames v))) := by
  constructor
  · intro env r b k v hb hk hmd hf
    exact resolve_record_md_no_valid_names env r b k v hb hk hmd hf
  · intro env r reg b k v hreg hb hk hmd hf
    have h1 : get_region [r] = Except.ok reg := by
      simp [get_region, hreg]
    have h2 : resolve_update_tasks env [r] =
        Except.error (UpdateError.noValidFunctionNames v) := by
      simp [resolve_update_tasks,
        resolve_record_md_no_valid_names env r b k v hb hk hmd hf,
        error_bind]
    simp [update, h1, h2]

/-- An environment whose metadata lookup yields a `function.names` value of
only commas and whitespace, and whose update calls succeed. -/
def envWsMd : Env where
  headObject := fun _ _ =>
    Except.ok { metadata := some [(FUNCTION_NAME_MD_KEY, str ", ,")] }
  updateFunctionCode := fun _ _ _ => Except.ok ()

/-- C10 witness: applying the theorem to a record whose key is
`f.zip` (so the fallback would have succeeded) but whose metadata names
trim away to nothing — the run still fails. -/
theorem c10_witness :
    update envWsMd { records := [recordZip] } =
      ([], Except.error (UpdateError.noValidFunctionNames (str ", ,"))) :=
  c10_metadata_empty_names_fails.2 envWsMd recordZip (str "us-west-2")
    (str "b") (str "f.zip") (str ", ,") rfl rfl rfl (by decide) (by decide)

end LambdUpdate
